import Mathlib

/-!
Verification of the knight's-tour replay/animation engine
(`KnightTour_MCTS_CNN/Numbers_Visualization.py`) against its design
specification.  Python floats only ever undergo addition and a few exact
divisions in the fragments modelled here, so they are embedded as `ℚ`;
Python `int` is embedded as `ℤ` (arbitrary precision in Python), and
Python `//` (floor division) as `Int.fdiv`.  Code that can raise an
exception is embedded with `Option`.
-/

set_option maxRecDepth 8000

namespace KnightTourViz

/-! ### Particle system
`Numbers_Visualization.py`, `create_particle` (lines 93-103),
`update_particles` (lines 105-122) and the emission site inside
`visualize_tour` (lines 360-372). -/

/-- A particle dictionary: keys `x, y, color, size, speed_x, speed_y, life`
(lines 95-103).  Positions and velocities are Python floats, modelled as `ℚ`
(only `+` is applied to them); `life` is a Python int. -/
structure Particle where
  x : ℚ
  y : ℚ
  color : ℕ × ℕ × ℕ
  size : ℕ
  speed_x : ℚ
  speed_y : ℚ
  life : ℤ
deriving DecidableEq

/-- `self.PARTICLE_COLORS` (lines 53-61): the fixed seven-entry palette. -/
def PARTICLE_COLORS : List (ℕ × ℕ × ℕ) :=
  [(255, 0, 0), (0, 255, 0), (0, 0, 255), (255, 165, 0),
   (255, 0, 255), (255, 255, 0), (128, 0, 128)]

/-- `self.max_particles = 100` (line 73). -/
def max_particles : ℕ := 100

/-- The per-particle mutation performed inside `update_particles`
(lines 108-110): `x += speed_x; y += speed_y; life -= 1`. -/
def stepParticle (p : Particle) : Particle :=
  { p with x := p.x + p.speed_x, y := p.y + p.speed_y, life := p.life - 1 }

/-- `update_particles` (lines 105-122).  The Python loop iterates over a copy
of the list; each particle is mutated, then drawn (line 113, before the
removal check), then removed from the live list when `life <= 0`
(lines 121-122).  Returns `(survivors, rendered)`: the live list after the
call and the list of particle states passed to the draw call, in order. -/
def update_particles (ps : List Particle) : List Particle × List Particle :=
  let moved := ps.map stepParticle
  (moved.filter (fun q => decide (0 < q.life)), moved)

/-- The emission site in `visualize_tour` (lines 366-369): the whole batch is
appended only when the current count is strictly below `max_particles`;
otherwise the request is dropped. -/
def emit (ps : List Particle) (batch : List Particle) : List Particle :=
  if ps.length < max_particles then ps ++ batch else ps

/-- One frame of particle activity as sequenced by `visualize_tour`
(lines 360-372): emission first, then `update_particles`. -/
def frame (ps : List Particle) (batch : List Particle) : List Particle :=
  (update_particles (emit ps batch)).1

/-- Running a sequence of frames, one emission batch per frame (a frame that
emits nothing passes `[]`). -/
def runFrames (batches : List (List Particle)) (ps : List Particle) : List Particle :=
  batches.foldl frame ps

/-- A particle with attribute values the code can actually generate
(`create_particle`, lines 93-103: color from the palette, size 2,
velocity components in `[-2, 2]`, life in `[30, 60]`). -/
def cexParticle : Particle :=
  { x := 0, y := 0, color := (255, 0, 0), size := 2,
    speed_x := 0, speed_y := 0, life := 30 }

/-- Eleven frames of emission with batch sizes the code can draw from
`random.randint(5, 10)` (line 367): nine batches of 10, one of 5, one of 10. -/
def cexBatches : List (List Particle) :=
  List.replicate 9 (List.replicate 10 cexParticle) ++
    [List.replicate 5 cexParticle, List.replicate 10 cexParticle]

/-- The particle list obtained from a single freshly created particle after 29
frames in which nothing is emitted: its lifetime has dropped from 30 to 1. -/
def agedParticles : List Particle := runFrames (List.replicate 29 []) [cexParticle]

lemma length_update_le (ps : List Particle) :
    (update_particles ps).1.length ≤ ps.length := by
  have h := List.length_filter_le (fun q => decide (0 < q.life)) (ps.map stepParticle)
  simpa [update_particles] using h

lemma length_frame_le (ps b : List Particle) (hb : b.length ≤ 10)
    (h : ps.length ≤ 109) : (frame ps b).length ≤ 109 := by
  have h1 := length_update_le (emit ps b)
  have h2 : (emit ps b).length ≤ 109 := by
    unfold emit max_particles
    split
    · simp only [List.length_append]
      omega
    · exact h
  calc (frame ps b).length ≤ (emit ps b).length := h1
    _ ≤ 109 := h2

lemma runFrames_length_le (batches : List (List Particle))
    (hb : ∀ b ∈ batches, b.length ≤ 10) :
    ∀ ps : List Particle, ps.length ≤ 109 → (runFrames batches ps).length ≤ 109 := by
  induction batches with
  | nil => intro ps h; simpa [runFrames] using h
  | cons b bs ih =>
    intro ps h
    have hb0 : b.length ≤ 10 := hb b (List.mem_cons_self b bs)
    have hbs : ∀ c ∈ bs, c.length ≤ 10 := fun c hc => hb c (List.mem_cons_of_mem b hc)
    have : runFrames (b :: bs) ps = runFrames bs (frame ps b) := rfl
    rw [this]
    exact ih hbs (frame ps b) (length_frame_le ps b hb0 h)

/-- Claim C1 counterexample: a reachable sequence of per-frame emissions, all
with batch sizes inside the code's range `[5, 10]` and freshly created
particle lifetimes, leaves the system with 105 live particles after the final
`update_particles` call — strictly more than the configured cap of 100.  The
claim "at most the configured cap of 100 live particles after any update
call" is therefore false of the code. -/
theorem particle_cap_exceeded_cex :
    (∀ b ∈ cexBatches, 5 ≤ b.length ∧ b.length ≤ 10) ∧
      max_particles < (runFrames cexBatches []).length := by decide

/-- Claim C1 (amended): when every emission batch has at most 10 particles
(the code's maximum from `random.randint(5, 10)`), a run from the empty
system holds at most `109 = max_particles - 1 + 10` live particles after any
update; moreover an emission request arriving when the count is at or above
the cap of 100 is dropped entirely. -/
theorem particle_count_bound (batches : List (List Particle))
    (hb : ∀ b ∈ batches, b.length ≤ 10) :
    (runFrames batches []).length ≤ 109 ∧
      ∀ ps b, max_particles ≤ ps.length → emit ps b = ps := by
  refine ⟨runFrames_length_le batches hb [] (by simp), ?_⟩
  intro ps b h
  unfold emit
  split
  · omega
  · rfl

/-- Witness for `particle_count_bound` at the concrete batch sequence
`cexBatches`. -/
theorem particle_count_bound_witness :
    (∀ b ∈ cexBatches, b.length ≤ 10) ∧
      ((runFrames cexBatches []).length ≤ 109 ∧
        ∀ ps b, max_particles ≤ ps.length → emit ps b = ps) :=
  ⟨by decide, particle_count_bound cexBatches (by decide)⟩

/-- Claim C3 counterexample: a particle created with lifetime 30 and aged for
29 update calls enters the next `update_particles` with lifetime 1; that call
decrements the lifetime to 0 and then draws the particle (line 113 precedes
the removal check at lines 121-122), so a particle IS rendered while its
lifetime is `≤ 0`.  The claim "no particle is ever rendered while its
lifetime is less than or equal to 0" is therefore false of the code. -/
theorem render_dead_particle_cex :
    (update_particles agedParticles).2 ≠ [] ∧
      ¬ (∀ r ∈ (update_particles agedParticles).2, 0 < r.life) := by decide

/-- Claim C3 (amended): in every `update_particles` call on particles whose
lifetimes are all positive (as holds for every reachable state: creation
gives lifetimes in `[30, 60]` and survivors keep positive lifetimes), each
particle's lifetime decreases by exactly 1, the survivors are exactly the
mutated particles with positive remaining lifetime (so a particle is removed
in the same update in which its lifetime reaches 0), and every rendered
particle has lifetime `≥ 0` at render time — a particle is rendered exactly
once with lifetime 0, in the update that removes it, never with a negative
lifetime. -/
theorem update_particles_spec (ps : List Particle)
    (hps : ∀ p ∈ ps, 0 < p.life) :
    (update_particles ps).2 = ps.map stepParticle ∧
      (∀ p ∈ ps, (stepParticle p).life = p.life - 1) ∧
      (update_particles ps).1 =
        ((update_particles ps).2).filter (fun q => decide (0 < q.life)) ∧
      (∀ q ∈ (update_particles ps).1, 0 < q.life) ∧
      (∀ r ∈ (update_particles ps).2, 0 ≤ r.life) := by
  refine ⟨rfl, fun p _ => rfl, rfl, ?_, ?_⟩
  · intro q hq
    rw [update_particles, List.mem_filter] at hq
    exact of_decide_eq_true hq.2
  · intro r hr
    rw [update_particles] at hr
    simp only [List.mem_map] at hr
    obtain ⟨p, hp, rfl⟩ := hr
    have := hps p hp
    simp only [stepParticle]
    omega

/-- Witness for `update_particles_spec` at the singleton list holding one
freshly created particle. -/
theorem update_particles_spec_witness :
    (∀ p ∈ [cexParticle], 0 < p.life) ∧
      ((update_particles [cexParticle]).2 = [cexParticle].map stepParticle ∧
        (∀ p ∈ [cexParticle], (stepParticle p).life = p.life - 1) ∧
        (update_particles [cexParticle]).1 =
          ((update_particles [cexParticle]).2).filter (fun q => decide (0 < q.life)) ∧
        (∀ q ∈ (update_particles [cexParticle]).1, 0 < q.life) ∧
        (∀ r ∈ (update_particles [cexParticle]).2, 0 ≤ r.life)) :=
  ⟨by decide, update_particles_spec [cexParticle] (by decide)⟩

/-! ### Fade opacity
`visualize_tour`, line 297:
`opacity = int(255 * (0.3 + 0.7 * (prev_step / step))) if step > 0 else 255`. -/

/-- The interpolant `0.3 + 0.7 * (prev_step / step)` computed on line 297 for
`step > 0`.  Python float literals `0.3` and `0.7` and true division are
modelled exactly over `ℚ` (and `0.3 + 0.7 == 1.0` holds in IEEE doubles, so
the endpoint agrees). -/
def opacityQ (step p : ℕ) : ℚ := 3 / 10 + 7 / 10 * ((p : ℚ) / (step : ℚ))

/-- The full opacity computation of line 297.  Python `int()` truncates toward
zero; the operand is nonnegative here, so truncation is the floor. -/
def fadeOpacity (step p : ℕ) : ℤ :=
  if step = 0 then 255 else ⌊(255 : ℚ) * opacityQ step p⌋

/-- Modelled from the spec's words for comparison with `opacityQ`: the linear
interpolation between a floor `a` and `b` proportional to `t`. -/
def lerpSpec (a b t : ℚ) : ℚ := a + (b - a) * t

/-- Claim C4: the opacity is 255 (full) when the current step is 0; otherwise
the interpolant is exactly the linear interpolation between the floor `0.3`
and `1.0` proportional to `p / s`; the resulting alpha is monotonically
non-decreasing in the historical index and equals 255 at `p = s`. -/
theorem fade_opacity_spec (s p q : ℕ) (hpq : p ≤ q) (hqs : q ≤ s) :
    fadeOpacity 0 p = 255 ∧
      (0 < s → opacityQ s p = lerpSpec (3 / 10) 1 ((p : ℚ) / (s : ℚ))) ∧
      fadeOpacity s p ≤ fadeOpacity s q ∧
      fadeOpacity s s = 255 := by
  refine ⟨by simp [fadeOpacity], fun _ => by unfold opacityQ lerpSpec; ring, ?_, ?_⟩
  · by_cases hs : s = 0
    · subst hs; simp [fadeOpacity]
    · have hs' : (0 : ℚ) < (s : ℚ) := by
        exact_mod_cast Nat.pos_of_ne_zero hs
      have hmono : (255 : ℚ) * opacityQ s p ≤ (255 : ℚ) * opacityQ s q := by
        unfold opacityQ
        have hc : (p : ℚ) ≤ (q : ℚ) := by exact_mod_cast hpq
        gcongr
      simp only [fadeOpacity, hs, if_false]
      exact Int.floor_le_floor hmono
  · by_cases hs : s = 0
    · subst hs; simp [fadeOpacity]
    · have hs' : ((s : ℚ)) ≠ 0 := by
        exact_mod_cast hs
      simp only [fadeOpacity, hs, if_false, opacityQ, div_self hs']
      norm_num

/-- Witness for `fade_opacity_spec` at `s = 2`, `p = 1`, `q = 2`. -/
theorem fade_opacity_spec_witness :
    (1 ≤ 2 ∧ 2 ≤ 2) ∧
      (fadeOpacity 0 1 = 255 ∧
        (0 < 2 → opacityQ 2 1 = lerpSpec (3 / 10) 1 ((1 : ℚ) / (2 : ℚ))) ∧
        fadeOpacity 2 1 ≤ fadeOpacity 2 2 ∧
        fadeOpacity 2 2 = 255) :=
  ⟨by decide, fade_opacity_spec 2 1 2 (by decide) (by decide)⟩

/-! ### The frame loop of `visualize_tour` (lines 281-420)
The loop `for step, (x, y) in enumerate(self.tour_path)` performs one
rendering iteration ("tick") per path index.  Inside an iteration, the
final-step overlay block (lines 379-399) and the completion banner run only
when `step == len(self.tour_path) - 1`, and the frame pacing is
`self.clock.tick(60 if step == len(self.tour_path) - 1 else 120)` (line 405).
After the loop, the code enters a loop that only polls for quit events
(lines 413-418). -/

/-- One rendering iteration of the `visualize_tour` loop. -/
structure Tick where
  step : ℕ
  drawsBoard : Bool
  hasFinalOverlay : Bool
  hasBanner : Bool
  fps : ℕ
deriving DecidableEq, Inhabited

/-- The controller phase after the loop: the spec's `AwaitingExit`
(the quit-polling loop of lines 413-418). -/
inductive Phase where
  | playing
  | completed
  | awaitingExit
deriving DecidableEq

/-- The tick executed at loop index `step` for a path of length `L`
(`L ≥ 1` whenever the loop body runs).  The board is drawn every iteration
(line 290); overlay and banner are conditional on `step = L - 1`
(line 379); pacing per line 405. -/
def tickAt (L step : ℕ) : Tick :=
  { step := step
    drawsBoard := true
    hasFinalOverlay := decide (step = L - 1)
    hasBanner := decide (step = L - 1)
    fps := if step = L - 1 then 60 else 120 }

/-- The full tick trace of `visualize_tour`: one tick per path index. -/
def visualizeTicks (path : List (ℤ × ℤ)) : List Tick :=
  (List.range path.length).map (tickAt path.length)

/-- `visualize_tour` as a whole: the tick trace, then the quit-polling
(awaiting-exit) phase. -/
def visualize_tour (path : List (ℤ × ℤ)) : List Tick × Phase :=
  (visualizeTicks path, Phase.awaitingExit)

/-- How many ticks of the replay draw the board. -/
def boardDrawCount (path : List (ℤ × ℤ)) : ℕ :=
  ((visualizeTicks path).filter (fun t => t.drawsBoard)).length

lemma visualizeTicks_getD (path : List (ℤ × ℤ)) (i : ℕ) (h : i < path.length) :
    (visualizeTicks path).getD i default = tickAt path.length i := by
  unfold visualizeTicks
  have hlen : i < ((List.range path.length).map (tickAt path.length)).length := by
    simpa using h
  rw [List.getD_eq_getElem _ _ hlen]
  simp

/-- Claim C2 counterexample: for the path `[(0, 0)]` of length `L = 1`, the
claim demands `L = 1` Playing ticks rendered without the final-step overlay,
followed by one further Completed tick rendering it.  The trace contains a
single tick and that tick already renders the final-step overlay, so the
number of ticks rendered without the overlay is 0, not 1, and no further
tick exists. -/
theorem tick_count_cex :
    (visualizeTicks [((0 : ℤ), (0 : ℤ))]).length = 1 ∧
      ¬ (((visualizeTicks [((0 : ℤ), (0 : ℤ))]).filter
            (fun t => t.hasFinalOverlay = false)).length = 1) := by decide

/-- Claim C2 (amended): for every non-empty path of length `L` the loop
performs exactly `L` ticks in total; the ticks at indices `0 .. L-2` render
without the final-step overlay and the single tick at index `L-1` renders the
final-step overlay together with the completion banner (there is no separate
additional tick); afterwards the controller enters the awaiting-exit phase
where it only polls for cancellation. -/
theorem tick_structure (path : List (ℤ × ℤ)) (_h : path ≠ []) :
    (visualize_tour path).2 = Phase.awaitingExit ∧
      (visualizeTicks path).length = path.length ∧
      (∀ i, i < path.length →
        (((visualizeTicks path).getD i default).hasFinalOverlay = true ↔
          i = path.length - 1)) ∧
      (∀ i, i < path.length →
        (((visualizeTicks path).getD i default).hasBanner = true ↔
          i = path.length - 1)) := by
  refine ⟨rfl, by simp [visualizeTicks], ?_, ?_⟩ <;>
    · intro i hi
      rw [visualizeTicks_getD path i hi]
      simp [tickAt]

/-- Witness for `tick_structure` at a concrete path of length 3. -/
theorem tick_structure_witness :
    ([((0 : ℤ), (0 : ℤ)), (2, 1), (3, 3)] ≠ ([] : List (ℤ × ℤ))) ∧
      ((visualize_tour [((0 : ℤ), (0 : ℤ)), (2, 1), (3, 3)]).2 = Phase.awaitingExit ∧
        (visualizeTicks [((0 : ℤ), (0 : ℤ)), (2, 1), (3, 3)]).length =
          ([((0 : ℤ), (0 : ℤ)), (2, 1), (3, 3)] : List (ℤ × ℤ)).length ∧
        (∀ i, i < ([((0 : ℤ), (0 : ℤ)), (2, 1), (3, 3)] : List (ℤ × ℤ)).length →
          (((visualizeTicks [((0 : ℤ), (0 : ℤ)), (2, 1), (3, 3)]).getD i default).hasFinalOverlay = true ↔
            i = ([((0 : ℤ), (0 : ℤ)), (2, 1), (3, 3)] : List (ℤ × ℤ)).length - 1)) ∧
        (∀ i, i < ([((0 : ℤ), (0 : ℤ)), (2, 1), (3, 3)] : List (ℤ × ℤ)).length →
          (((visualizeTicks [((0 : ℤ), (0 : ℤ)), (2, 1), (3, 3)]).getD i default).hasBanner = true ↔
            i = ([((0 : ℤ), (0 : ℤ)), (2, 1), (3, 3)] : List (ℤ × ℤ)).length - 1))) :=
  ⟨by decide, tick_structure [((0 : ℤ), (0 : ℤ)), (2, 1), (3, 3)] (by decide)⟩

/-- Claim C7 counterexample: for an empty path the loop body never runs, so
the board is drawn zero times, not once as the claim states. -/
theorem empty_path_board_cex :
    boardDrawCount ([] : List (ℤ × ℤ)) = 0 ∧
      ¬ (boardDrawCount ([] : List (ℤ × ℤ)) = 1) := by decide

/-- Claim C7 (amended): for an empty path the controller proceeds directly to
the awaiting-exit phase with no rendering at all — no ticks occur, and in
particular the board is drawn zero times (not once). -/
theorem empty_path_behavior :
    visualize_tour ([] : List (ℤ × ℤ)) = ([], Phase.awaitingExit) ∧
      boardDrawCount ([] : List (ℤ × ℤ)) = 0 := by decide

/-! ### Trail segments during normal play
`visualize_tour`, lines 293 and 345-358: inside `for prev_step in
range(step + 1)`, a line from `tour_path[prev_step - 1]` to
`tour_path[prev_step]` is drawn iff `prev_step > 0 and prev_step < step`,
with color `self.PARTICLE_COLORS[prev_step % len(self.PARTICLE_COLORS)]`
and the frame's fade opacity as alpha. -/

/-- One connecting trail segment drawn during normal play. -/
structure TrailSeg where
  p : ℕ
  src : ℤ × ℤ
  dst : ℤ × ℤ
  rgb : ℕ × ℕ × ℕ
  alpha : ℤ
deriving DecidableEq, Inhabited

/-- The trail segments drawn in the frame at current step `s`
(lines 293, 345-358), in loop order. -/
def frameTrailSegs (path : List (ℤ × ℤ)) (s : ℕ) : List TrailSeg :=
  ((List.range (s + 1)).filter (fun q => decide (0 < q ∧ q < s))).map
    (fun q =>
      { p := q
        src := path.getD (q - 1) (0, 0)
        dst := path.getD q (0, 0)
        rgb := PARTICLE_COLORS.getD (q % PARTICLE_COLORS.length) (0, 0, 0)
        alpha := fadeOpacity s q })

/-- Claim C5: the palette has 7 entries; during normal play at current step
`s` a connecting segment with endpoint index `p` is drawn exactly when
`0 < p < s`, and every drawn segment runs from `path[p-1]` to `path[p]` with
the fixed palette color at index `p mod 7`. -/
theorem trail_segment_spec (path : List (ℤ × ℤ)) (s p : ℕ) :
    PARTICLE_COLORS.length = 7 ∧
      ((∃ seg ∈ frameTrailSegs path s, seg.p = p) ↔ (0 < p ∧ p < s)) ∧
      (∀ seg ∈ frameTrailSegs path s,
        seg.src = path.getD (seg.p - 1) (0, 0) ∧
          seg.dst = path.getD seg.p (0, 0) ∧
          seg.rgb = PARTICLE_COLORS.getD (seg.p % 7) (0, 0, 0) ∧
          seg.alpha = fadeOpacity s seg.p) := by
  refine ⟨rfl, ?_, ?_⟩
  · constructor
    · rintro ⟨seg, hseg, rfl⟩
      rw [frameTrailSegs, List.mem_map] at hseg
      obtain ⟨a, ha, rfl⟩ := hseg
      rw [List.mem_filter] at ha
      exact of_decide_eq_true ha.2
    · rintro ⟨hp0, hps⟩
      refine ⟨_, List.mem_map_of_mem _ ?_, rfl⟩
      rw [List.mem_filter, List.mem_range]
      exact ⟨by omega, decide_eq_true ⟨hp0, hps⟩⟩
  · intro seg hseg
    rw [frameTrailSegs, List.mem_map] at hseg
    obtain ⟨a, _, rfl⟩ := hseg
    exact ⟨rfl, rfl, rfl, rfl⟩

/-- Witness for `trail_segment_spec` at a concrete path, step 2, index 1. -/
theorem trail_segment_spec_witness :
    PARTICLE_COLORS.length = 7 ∧
      ((∃ seg ∈ frameTrailSegs [((0 : ℤ), (0 : ℤ)), (1, 2), (3, 3)] 2, seg.p = 1) ↔
        (0 < 1 ∧ 1 < 2)) ∧
      (∀ seg ∈ frameTrailSegs [((0 : ℤ), (0 : ℤ)), (1, 2), (3, 3)] 2,
        seg.src = ([((0 : ℤ), (0 : ℤ)), (1, 2), (3, 3)] : List (ℤ × ℤ)).getD (seg.p - 1) (0, 0) ∧
          seg.dst = ([((0 : ℤ), (0 : ℤ)), (1, 2), (3, 3)] : List (ℤ × ℤ)).getD seg.p (0, 0) ∧
          seg.rgb = PARTICLE_COLORS.getD (seg.p % 7) (0, 0, 0) ∧
          seg.alpha = fadeOpacity 2 seg.p) :=
  trail_segment_spec [((0 : ℤ), (0 : ℤ)), (1, 2), (3, 3)] 2 1

/-! ### Final-step overlay
`visualize_tour`, lines 378-399: when `step == len(self.tour_path) - 1`, an
additional pass draws a line from `tour_path[i-1]` to `tour_path[i]` for
every `i in range(1, len(self.tour_path))`, each in the one fixed color
`(50, 200, 50, 200)`, followed by the "TOUR COMPLETE!" banner. -/

/-- One segment of the final-step overlay pass. -/
structure OverlaySeg where
  src : ℤ × ℤ
  dst : ℤ × ℤ
  color : ℕ × ℕ × ℕ × ℕ
deriving DecidableEq, Inhabited

/-- The RGBA constant of line 387. -/
def FINAL_LINE_COLOR : ℕ × ℕ × ℕ × ℕ := (50, 200, 50, 200)

/-- The overlay segments drawn by the final-step pass (lines 381-394). -/
def finalOverlaySegs (path : List (ℤ × ℤ)) : List OverlaySeg :=
  (List.range' 1 (path.length - 1)).map (fun i =>
    { src := path.getD (i - 1) (0, 0)
      dst := path.getD i (0, 0)
      color := FINAL_LINE_COLOR })

/-- Claim C8 counterexample: the overlay segments are drawn with alpha 200 of
255, not at full opacity as the claim states — on the two-point path
`[(0, 0), (1, 2)]` the (non-empty) overlay pass has no segment whose alpha
component is 255. -/
theorem overlay_alpha_cex :
    finalOverlaySegs [((0 : ℤ), (0 : ℤ)), (1, 2)] ≠ [] ∧
      ¬ (∀ seg ∈ finalOverlaySegs [((0 : ℤ), (0 : ℤ)), (1, 2)],
          seg.color.2.2.2 = 255) := by decide

/-- Claim C8 (amended): the final-step overlay is rendered on the tick at the
final step only; the overlay pass draws exactly `L - 1` segments, the one
with index `i` (for `1 ≤ i < L`) running from `path[i-1]` to `path[i]`, all
in the one fixed color `(50, 200, 50)` at alpha 200 (not full opacity);
the completion banner is likewise shown on the final tick only. -/
theorem final_overlay_spec (path : List (ℤ × ℤ)) (i : ℕ) :
    (∀ j, j < path.length →
      (((visualizeTicks path).getD j default).hasFinalOverlay = true ↔
        j = path.length - 1)) ∧
      (finalOverlaySegs path).length = path.length - 1 ∧
      (1 ≤ i ∧ i < path.length →
        (finalOverlaySegs path).getD (i - 1) default =
          { src := path.getD (i - 1) (0, 0)
            dst := path.getD i (0, 0)
            color := FINAL_LINE_COLOR }) ∧
      (∀ seg ∈ finalOverlaySegs path, seg.color = (50, 200, 50, 200)) ∧
      (∀ j, j < path.length →
        (((visualizeTicks path).getD j default).hasBanner = true ↔
          j = path.length - 1)) := by
  refine ⟨?_, by simp [finalOverlaySegs], ?_, ?_, ?_⟩
  · intro j hj
    rw [visualizeTicks_getD path j hj]
    simp [tickAt]
  · rintro ⟨hi1, hiL⟩
    have hlen : i - 1 < (finalOverlaySegs path).length := by
      simp only [finalOverlaySegs, List.length_map, List.length_range']
      omega
    rw [List.getD_eq_getElem _ _ hlen]
    simp only [finalOverlaySegs, List.getElem_map, List.getElem_range']
    have h1 : 1 + 1 * (i - 1) = i := by omega
    rw [h1]
  · intro seg hseg
    rw [finalOverlaySegs, List.mem_map] at hseg
    obtain ⟨a, _, rfl⟩ := hseg
    rfl
  · intro j hj
    rw [visualizeTicks_getD path j hj]
    simp [tickAt]

/-- Witness for `final_overlay_spec` at a concrete path of length 3 and
`i = 2`. -/
theorem final_overlay_spec_witness :
    (∀ j, j < ([((0 : ℤ), (0 : ℤ)), (2, 1), (3, 3)] : List (ℤ × ℤ)).length →
      (((visualizeTicks [((0 : ℤ), (0 : ℤ)), (2, 1), (3, 3)]).getD j default).hasFinalOverlay = true ↔
        j = ([((0 : ℤ), (0 : ℤ)), (2, 1), (3, 3)] : List (ℤ × ℤ)).length - 1)) ∧
      (finalOverlaySegs [((0 : ℤ), (0 : ℤ)), (2, 1), (3, 3)]).length =
        ([((0 : ℤ), (0 : ℤ)), (2, 1), (3, 3)] : List (ℤ × ℤ)).length - 1 ∧
      (1 ≤ 2 ∧ 2 < ([((0 : ℤ), (0 : ℤ)), (2, 1), (3, 3)] : List (ℤ × ℤ)).length →
        (finalOverlaySegs [((0 : ℤ), (0 : ℤ)), (2, 1), (3, 3)]).getD (2 - 1) default =
          { src := ([((0 : ℤ), (0 : ℤ)), (2, 1), (3, 3)] : List (ℤ × ℤ)).getD (2 - 1) (0, 0)
            dst := ([((0 : ℤ), (0 : ℤ)), (2, 1), (3, 3)] : List (ℤ × ℤ)).getD 2 (0, 0)
            color := FINAL_LINE_COLOR }) ∧
      (∀ seg ∈ finalOverlaySegs [((0 : ℤ), (0 : ℤ)), (2, 1), (3, 3)],
        seg.color = (50, 200, 50, 200)) ∧
      (∀ j, j < ([((0 : ℤ), (0 : ℤ)), (2, 1), (3, 3)] : List (ℤ × ℤ)).length →
        (((visualizeTicks [((0 : ℤ), (0 : ℤ)), (2, 1), (3, 3)]).getD j default).hasBanner = true ↔
          j = ([((0 : ℤ), (0 : ℤ)), (2, 1), (3, 3)] : List (ℤ × ℤ)).length - 1)) :=
  final_overlay_spec [((0 : ℤ), (0 : ℤ)), (2, 1), (3, 3)] 2

/-! ### Path-file loading
`load_tour_path` (lines 148-161): for each line of `path.txt`, if the line
starts with `Step`, the text between the first `(` and the following `)` is
split on `,` and converted with `int`; other lines are skipped.  An
unparsable `Step` line raises an uncaught exception, aborting the whole
load — embedded as `Option`.  Python string primitives are modelled at the
character-list level. -/

/-- The ASCII whitespace characters stripped by Python `int(str)`. -/
def isSpaceChar (c : Char) : Bool :=
  c = ' ' || c = '\t' || c = '\n' || c = '\r' || c = '\x0b' || c = '\x0c'

/-- Python `str.split(sep)` for a one-character separator: all fields are
kept, including empty ones, and the empty string yields `[""]`. -/
def splitChar (sep : Char) : List Char → List (List Char)
  | [] => [[]]
  | c :: rest =>
    let r := splitChar sep rest
    if c = sep then [] :: r
    else
      match r with
      | [] => [[c]]
      | h :: t => (c :: h) :: t

/-- Python `line.startswith('Step')` (line 157). -/
def startsWithStep : List Char → Bool
  | 'S' :: 't' :: 'e' :: 'p' :: _ => true
  | _ => false

/-- The whitespace stripping Python `int()` performs on its argument. -/
def pyStrip (l : List Char) : List Char :=
  ((l.dropWhile isSpaceChar).reverse.dropWhile isSpaceChar).reverse

/-- Value of a list of decimal digits. -/
def digitsVal (l : List Char) : ℕ :=
  l.foldl (fun acc c => 10 * acc + (c.toNat - 48)) 0

/-- Helper for `pyInt`: after the optional sign, the remainder must be a
non-empty run of decimal digits. -/
def pyIntCore (sign : ℤ) (digits : List Char) : Option ℤ :=
  if digits ≠ [] ∧ digits.all Char.isDigit then some (sign * digitsVal digits)
  else none

/-- Python `int(str)` on the strings arising here: strip whitespace, optional
sign, decimal digits; anything else raises `ValueError` (`none`).  (Python
additionally allows underscores between digits and non-ASCII digits; neither
occurs in the modelled inputs.) -/
def pyInt (l : List Char) : Option ℤ :=
  match pyStrip l with
  | [] => none
  | c :: rest =>
    if c = '-' then pyIntCore (-1) rest
    else if c = '+' then pyIntCore 1 rest
    else pyIntCore 1 (c :: rest)

/-- Lines 158-159 for one `Step` line:
`coords_str = line.split('(')[1].split(')')[0]` then
`x, y = map(int, coords_str.split(','))` — `[1]` raises `IndexError` when the
line has no `(`; the unpacking needs exactly two comma-separated fields, each
accepted by `int`. -/
def parseStepLine (line : String) : Option (ℤ × ℤ) :=
  match splitChar '(' line.data with
  | _ :: afterParen :: _ =>
    let coords := (splitChar ')' afterParen).headD []
    match splitChar ',' coords with
    | [a, b] =>
      match pyInt a, pyInt b with
      | some x, some y => some (x, y)
      | _, _ => none
    | _ => none
  | _ => none

/-- `load_tour_path` (lines 148-161) over the file's lines: `Step` lines are
parsed and collected in order, all other lines are skipped; a `Step` line
whose parse raises aborts the whole call (`none`). -/
def load_tour_path (lines : List String) : Option (List (ℤ × ℤ)) :=
  match lines with
  | [] => some []
  | l :: ls =>
    if startsWithStep l.data then
      match parseStepLine l with
      | some xy => (load_tour_path ls).map (fun rest => xy :: rest)
      | none => none
    else load_tour_path ls

/-- The order of the relevant side effects in `KnightTourVisualizer.__init__`:
`pygame.display.set_mode` opens the window on line 44, and only afterwards is
`load_tour_path` called on line 69. -/
inductive InitEvent where
  | windowOpened
  | pathLoaded
deriving DecidableEq

/-- The `__init__` effect sequence (lines 44 and 69, in source order). -/
def initEvents : List InitEvent := [InitEvent.windowOpened, InitEvent.pathLoaded]

/-- Claim C6 (code bug evidence): on a path file whose single line is
`"Step 1: (0, 0"` — the claim's own example of a malformed record, missing
the closing parenthesis — loading does not fail at all: the substring-based
parser silently accepts it and returns the coordinate pair `(0, 0)`.
Moreover the window is opened (line 44) before the path is loaded (line 69),
so even a load that did raise would do so after a window exists. -/
theorem malformed_line_parses :
    load_tour_path ["Step 1: (0, 0"] = some [((0 : ℤ), (0 : ℤ))] ∧
      List.indexOf InitEvent.windowOpened initEvents <
        List.indexOf InitEvent.pathLoaded initEvents := by decide

/-- Claim C10: `load_tour_path` returns exactly the coordinate pairs parsed
from the lines that start with `Step`, in file order (aborting if one of
those parses fails), and a line not starting with `Step` is skipped without
error and contributes nothing. -/
theorem load_tour_path_spec (lines : List String) :
    load_tour_path lines =
      (lines.filter (fun l => startsWithStep l.data)).mapM' parseStepLine ∧
      ∀ l, startsWithStep l.data = false →
        ∀ ls, load_tour_path (l :: ls) = load_tour_path ls := by
  constructor
  · induction lines with
    | nil => rfl
    | cons l ls ih =>
      by_cases h : startsWithStep l.data
      · cases hp : parseStepLine l with
        | none => simp [load_tour_path, h, hp, List.mapM'_cons, ih]
        | some xy =>
          simp only [load_tour_path, h, if_true, hp, List.filter_cons_of_pos,
            List.mapM'_cons, ih, Option.bind_eq_bind, Option.pure_def]
          cases ((List.filter (fun l => startsWithStep l.data) ls).mapM' parseStepLine) <;> rfl
      · simp [load_tour_path, h, ih]
  · intro l hl ls
    simp [load_tour_path, hl]

/-- Witness for `load_tour_path_spec` at a concrete four-line file. -/
theorem load_tour_path_spec_witness :
    load_tour_path ["header", "Step 1: (0, 1)", "", "Step 2: (2, 3)"] =
      ((["header", "Step 1: (0, 1)", "", "Step 2: (2, 3)"]).filter
          (fun l => startsWithStep l.data)).mapM' parseStepLine ∧
      ∀ l, startsWithStep l.data = false →
        ∀ ls, load_tour_path (l :: ls) = load_tour_path ls :=
  load_tour_path_spec ["header", "Step 1: (0, 1)", "", "Step 2: (2, 3)"]

/-! ### Board configuration and derived geometry
`main` (lines 422-429) parses `board.txt` into `board_config`, a list of rows
of integers; `__init__` (lines 19-84) stores it and derives all display
geometry from `len(board_config)` alone.  `draw_board` (lines 163-197) uses
only the derived geometry. -/

/-- The derived display geometry computed in `__init__`
(lines 19-84, with the font sizes of lines 65-66). -/
structure Geometry where
  BOARD_SIZE : ℕ
  CELL_SIZE : ℤ
  SCREEN_SIZE_X : ℤ
  SCREEN_SIZE_Y : ℤ
  BOARD_OFFSET_X : ℤ
  BOARD_OFFSET_Y : ℤ
  fontSize : ℤ
  largeFontSize : ℤ
deriving DecidableEq

/-- `gradient_color` (lines 86-91): the componentwise average, truncated by
`int()` (exact here — every componentwise sum below is even). -/
def gradient_color (c1 c2 : ℕ × ℕ × ℕ) : ℕ × ℕ × ℕ :=
  ((c1.1 + c2.1) / 2, (c1.2.1 + c2.2.1) / 2, (c1.2.2 + c2.2.2) / 2)

/-- `self.LIGHT_SQUARE` (line 49). -/
def LIGHT_SQUARE : ℕ × ℕ × ℕ := gradient_color (240, 217, 181) (220, 197, 161)

/-- `self.DARK_SQUARE` (line 50). -/
def DARK_SQUARE : ℕ × ℕ × ℕ := gradient_color (181, 136, 99) (161, 116, 79)

/-- `__init__` lines 19-84: `BOARD_SIZE = len(board_config)`; when no cell
size is passed, `CELL_SIZE` is the capped floor-division fit to the screen
(lines 24-35, Python `//` is `Int.fdiv`); screen sizes add 100 for label
margins (lines 40-41); offsets are 50 (lines 83-84).  The large font size
`int(max(48, CELL_SIZE // 2.5))` (line 66) floors `2 * CELL_SIZE / 5`, which
the float computation also does for the magnitudes arising here. -/
def initGeometry (board_config : List (List ℤ)) (screen_w screen_h : ℤ)
    (cell_size : Option ℤ) : Geometry :=
  let n : ℕ := board_config.length
  let cs : ℤ :=
    match cell_size with
    | none => min (min (Int.fdiv (screen_w - 200) (n : ℤ))
        (Int.fdiv (screen_h - 200) (n : ℤ))) 150
    | some c => c
  { BOARD_SIZE := n
    CELL_SIZE := cs
    SCREEN_SIZE_X := (n : ℤ) * cs + 100
    SCREEN_SIZE_Y := (n : ℤ) * cs + 100
    BOARD_OFFSET_X := 50
    BOARD_OFFSET_Y := 50
    fontSize := max 24 (Int.fdiv cs 5)
    largeFontSize := max 48 (Int.fdiv (2 * cs) 5) }

/-- The pixel center of a board cell, as computed at lines 302-307 and
352-355 (`// 2` is integer floor division). -/
def cellCenter (g : Geometry) (pos : ℤ × ℤ) : ℤ × ℤ :=
  (pos.1 * g.CELL_SIZE + Int.fdiv g.CELL_SIZE 2 + g.BOARD_OFFSET_X,
    ((g.BOARD_SIZE : ℤ) - 1 - pos.2) * g.CELL_SIZE + Int.fdiv g.CELL_SIZE 2 +
      g.BOARD_OFFSET_Y)

/-- The checkerboard cells drawn by `draw_board` (lines 165-177): rectangle
origin and fill color for each `(row, col)`, color chosen by the parity of
`row + col`. -/
def boardCells (g : Geometry) : List ((ℤ × ℤ) × (ℕ × ℕ × ℕ)) :=
  (List.range g.BOARD_SIZE).flatMap (fun row =>
    (List.range g.BOARD_SIZE).map (fun col =>
      (((col : ℤ) * g.CELL_SIZE + g.BOARD_OFFSET_X,
          ((g.BOARD_SIZE : ℤ) - 1 - (row : ℤ)) * g.CELL_SIZE + g.BOARD_OFFSET_Y),
        if (row + col) % 2 = 0 then LIGHT_SQUARE else DARK_SQUARE)))

/-- The row labels drawn by `draw_board` (lines 179-187): the numeral
`row + 1` and its center position. -/
def rowLabels (g : Geometry) : List (ℕ × (ℤ × ℤ)) :=
  (List.range g.BOARD_SIZE).map (fun row =>
    (row + 1,
      (Int.fdiv g.BOARD_OFFSET_X 2,
        ((g.BOARD_SIZE : ℤ) - 1 - (row : ℤ)) * g.CELL_SIZE + g.BOARD_OFFSET_Y +
          Int.fdiv g.CELL_SIZE 2)))

/-- The column labels drawn by `draw_board` (lines 189-197): the letter
`chr(ord('a') + col)` and its center position. -/
def colLabels (g : Geometry) : List (Char × (ℤ × ℤ)) :=
  (List.range g.BOARD_SIZE).map (fun col =>
    (Char.ofNat ('a'.toNat + col),
      ((col : ℤ) * g.CELL_SIZE + g.BOARD_OFFSET_X + Int.fdiv g.CELL_SIZE 2,
        g.SCREEN_SIZE_Y - Int.fdiv g.BOARD_OFFSET_Y 2)))

/-- Everything the engine derives or renders from its inputs: the geometry,
the board cells and labels, the pixel centers the path maps to, and the tick
trace with the terminal phase. -/
def runVisualizer (board_config : List (List ℤ)) (path : List (ℤ × ℤ))
    (screen_w screen_h : ℤ) (cell_size : Option ℤ) :
    Geometry × List ((ℤ × ℤ) × (ℕ × ℕ × ℕ)) × List (ℕ × (ℤ × ℤ)) ×
      List (Char × (ℤ × ℤ)) × List (ℤ × ℤ) × List Tick × Phase :=
  let g := initGeometry board_config screen_w screen_h cell_size
  (g, boardCells g, rowLabels g, colLabels g, path.map (cellCenter g),
    (visualize_tour path).1, (visualize_tour path).2)

/-- Claim C9: the engine consumes only the row count of the board file — the
board dimension is `len(board_config)`, and two board configurations with the
same number of rows but arbitrary different cell values yield identical
derived geometry and identical rendering output. -/
theorem board_values_noninterference (b1 b2 : List (List ℤ))
    (path : List (ℤ × ℤ)) (screen_w screen_h : ℤ) (cell_size : Option ℤ)
    (h : b1.length = b2.length) :
    (initGeometry b1 screen_w screen_h cell_size).BOARD_SIZE = b1.length ∧
      runVisualizer b1 path screen_w screen_h cell_size =
        runVisualizer b2 path screen_w screen_h cell_size := by
  refine ⟨rfl, ?_⟩
  simp only [runVisualizer, initGeometry, h]

/-- Witness for `board_values_noninterference`: two 2-row boards with
different cell values. -/
theorem board_values_noninterference_witness :
    ([[(1 : ℤ), 2], [3, 4]] : List (List ℤ)).length =
        ([[(9 : ℤ), 9], [0, 7]] : List (List ℤ)).length ∧
      ((initGeometry [[(1 : ℤ), 2], [3, 4]] 800 600 none).BOARD_SIZE =
          ([[(1 : ℤ), 2], [3, 4]] : List (List ℤ)).length ∧
        runVisualizer [[(1 : ℤ), 2], [3, 4]] [((0 : ℤ), (1 : ℤ))] 800 600 none =
          runVisualizer [[(9 : ℤ), 9], [0, 7]] [((0 : ℤ), (1 : ℤ))] 800 600 none) :=
  ⟨by decide,
    board_values_noninterference [[(1 : ℤ), 2], [3, 4]] [[(9 : ℤ), 9], [0, 7]]
      [((0 : ℤ), (1 : ℤ))] 800 600 none (by decide)⟩

end KnightTourViz
